import Mathlib

/-!
# Verification of the SLAMOptimization-BA bundle-adjustment core

Shallow embedding of the repository's two source files:

* `PoseAndIntrinsics`, `VertexPoseAndIntrinsics` (its `oplusImpl` and
  `project`), `EdgeProjection::computeError` and the graph construction /
  write-back phases of `SolveBA` from the g2o driver file;
* `BALProblem::WriteToFile`'s header line and its mismatched inner loop,
  the constructor's header read, and the angle-axis/center conversion
  helpers from `common.h`.

`double` arithmetic is modelled over an exact field (`ℚ` where only field
operations occur, `ℝ` where the rotation exponential/logarithm needs
`Real.cos`, `Real.sin`, `Real.sqrt`, `Real.arccos`).  Flat parameter
arrays are modelled as functions `ℕ → ℝ`, and the sequential stores of
the C++ loops as chains of pointwise updates folded over `List.range`.
-/

namespace BA

/-! ## Small vector helpers (Eigen's `Vector3d` operations) -/

/-- Eigen dot product / `squaredNorm` on 3-vectors: `a.dot(b)`. -/
def dot3 {K : Type} [Field K] (a b : Fin 3 → K) : K :=
  a 0 * b 0 + a 1 * b 1 + a 2 * b 2

/-- Eigen cross product on 3-vectors: `a.cross(b)`. -/
def cross3 {K : Type} [Field K] (a b : Fin 3 → K) : Fin 3 → K :=
  ![a 1 * b 2 - a 2 * b 1, a 2 * b 0 - a 0 * b 2, a 0 * b 1 - a 1 * b 0]

/-! ## WriteToFile: header line and the mismatched camera loop (`common.h`)

`BALProblem::WriteToFile` first prints
`fprintf(fptr, "%d %d %d %d\n", num_cameras_, num_cameras_, num_points_, num_observations_)`
while the constructor reads exactly three header integers with
`FscanfOrDie("%d", ...)`.  `fscanf` with `%d` skips all whitespace, so a
text file is faithfully a stream of tokens; we model the header portion
as a list of integers. -/

/-- The four integer tokens `WriteToFile` prints on its header line
(`num_cameras_` appears twice). -/
def writeToFileHeader (num_cameras num_points num_observations : Int) : List Int :=
  [num_cameras, num_cameras, num_points, num_observations]

/-- The three header integers the `BALProblem` constructor consumes from
the token stream (`num_cameras_`, `num_points_`, `num_observations_`);
`none` models `FscanfOrDie` failing on a truncated stream. -/
def readHeaderCounts : List Int → Option (Int × Int × Int)
  | a :: b :: c :: _ => some (a, b, c)
  | _ => none

/-- One execution of the body of the buggy inner camera-writing loop of
`WriteToFile`: `for (int j = 0; j < 9; ++i)` — the increment advances the
*outer* variable `i`, the loop variable `j` is never changed.  State is
the pair `(i, j)`. -/
def writeCamerasLoopStep (s : Int × Int) : Int × Int :=
  (s.1 + 1, s.2)

/-- The state of the buggy inner loop after `n` executions of its body,
starting from outer index `i` and the initializer `j = 0`. -/
def writeCamerasLoopState (i : Int) : Nat → Int × Int
  | 0 => (i, 0)
  | n + 1 => writeCamerasLoopStep (writeCamerasLoopState i n)

/-- The guard of the buggy inner loop: `j < 9`. -/
def writeCamerasLoopGuard (s : Int × Int) : Prop :=
  s.2 < 9

instance (s : Int × Int) : Decidable (writeCamerasLoopGuard s) :=
  inferInstanceAs (Decidable (s.2 < 9))

/-! ## PoseAndIntrinsics and projection (g2o driver file) -/

/-- `PoseAndIntrinsics`: rotation (a 3×3 rotation matrix, Sophus `SO3d`),
translation, focal length and two radial-distortion coefficients.
Parametrized by the exact field modelling `double`. -/
structure PoseAndIntrinsics (K : Type) [Field K] where
  rotation : Matrix (Fin 3) (Fin 3) K
  translation : Fin 3 → K
  focal : K
  k1 : K
  k2 : K

/-- `VertexPoseAndIntrinsics::project` (driver file, lines 64–73):
`pc = R·p + t`; `pc = -pc / pc[2]` (componentwise); `r2 = pc.squaredNorm()`
of the *full 3-vector*; `distortion = 1 + r2*(k1 + k2*r2)`; result is
`(focal*distortion*pc[0], focal*distortion*pc[1])`. -/
def project {K : Type} [Field K] (est : PoseAndIntrinsics K) (point : Fin 3 → K) :
    Fin 2 → K :=
  let pc : Fin 3 → K := fun i => est.rotation.mulVec point i + est.translation i
  let pcn : Fin 3 → K := fun i => -pc i / pc 2
  let r2 : K := dot3 pcn pcn
  let distortion : K := 1 + r2 * (est.k1 + est.k2 * r2)
  ![est.focal * distortion * pcn 0, est.focal * distortion * pcn 1]

/-- Projection exactly as claim C1 words it (for comparison with
`project`, which is translated from the source): perspective division by
the negated camera-frame coordinates, radial distortion
`1 + k1·r² + k2·r⁴` with `r²` the squared norm of the normalized 2D
image-plane point — its `x/z` and `y/z` components only — then scaling
by the focal length. -/
def projectSpecClaim {K : Type} [Field K] (est : PoseAndIntrinsics K) (point : Fin 3 → K) :
    Fin 2 → K :=
  let pc : Fin 3 → K := fun i => est.rotation.mulVec point i + est.translation i
  let px : K := -pc 0 / pc 2
  let py : K := -pc 1 / pc 2
  let r2 : K := px ^ 2 + py ^ 2
  let distortion : K := 1 + est.k1 * r2 + est.k2 * r2 ^ 2
  ![est.focal * distortion * px, est.focal * distortion * py]

/-- Projection as the amended claim C1 words it: identical to
`projectSpecClaim` except that `r²` is the squared norm of the full
normalized 3-vector `(-x/z, -y/z, -1)`, that is `(x/z)² + (y/z)² + 1`,
its unit third component included. -/
def projectAmendedClaim {K : Type} [Field K] (est : PoseAndIntrinsics K) (point : Fin 3 → K) :
    Fin 2 → K :=
  let pc : Fin 3 → K := fun i => est.rotation.mulVec point i + est.translation i
  let px : K := -pc 0 / pc 2
  let py : K := -pc 1 / pc 2
  let r2 : K := px ^ 2 + py ^ 2 + 1
  let distortion : K := 1 + est.k1 * r2 + est.k2 * r2 ^ 2
  ![est.focal * distortion * px, est.focal * distortion * py]

/-- A concrete camera estimate (identity rotation, zero translation,
`focal = 1`, `k1 = 1`, `k2 = 0`) used for counterexamples and witnesses. -/
def testCamera : PoseAndIntrinsics ℚ :=
  { rotation := 1, translation := ![0, 0, 0], focal := 1, k1 := 1, k2 := 0 }

/-- A concrete 3D point in front of the test camera (depth `z = -1`). -/
def testPoint : Fin 3 → ℚ := ![1, 0, -1]

/-- `EdgeProjection::computeError` (driver file, lines 104–109):
`_error = v0->project(v1->estimate()) - _measurement`. -/
def computeError {K : Type} [Field K] (v0 : PoseAndIntrinsics K) (v1 : Fin 3 → K)
    (measurement : Fin 2 → K) : Fin 2 → K :=
  fun i => project v0 v1 i - measurement i

/-! ## SolveBA graph construction (driver file, lines 179–187) -/

/-- The robust kernel attached to an edge: `g2o::RobustKernelHuber`, or
no kernel at all. -/
inductive RobustKernelKind where
  | nokernel
  | huber
deriving DecidableEq

/-- The data of the `BALProblem` container consumed by `SolveBA`: counts,
per-observation index arrays, the flat observation array (two scalars per
observation) and the flat parameter array (`9·num_cameras` camera scalars
followed by `3·num_points` point scalars). -/
structure BALProblemData (K : Type) [Field K] where
  num_cameras : ℕ
  num_points : ℕ
  num_observations : ℕ
  camera_index : ℕ → ℕ
  point_index : ℕ → ℕ
  observations : ℕ → K
  parameters : ℕ → K

/-- One residual edge as configured by `SolveBA`: the two vertex indices,
the fixed 2D measurement, the information matrix and the robust kernel. -/
structure EdgeProjectionData (K : Type) [Field K] where
  cam : ℕ
  pt : ℕ
  measurement : Fin 2 → K
  information : Matrix (Fin 2) (Fin 2) K
  robustKernel : RobustKernelKind

/-- The edge-construction loop of `SolveBA`: for every observation `i`,
one edge connecting camera vertex `camera_index[i]` and point vertex
`point_index[i]`, with measurement `(observations[2i], observations[2i+1])`,
`setInformation(Matrix2d::Identity())` and
`setRobustKernel(new RobustKernelHuber())`. -/
def buildEdges {K : Type} [Field K] (P : BALProblemData K) : List (EdgeProjectionData K) :=
  (List.range P.num_observations).map fun i =>
    { cam := P.camera_index i
      pt := P.point_index i
      measurement := ![P.observations (2 * i), P.observations (2 * i + 1)]
      information := 1
      robustKernel := RobustKernelKind.huber }

/-- Default edge value used with `List.getD`. -/
def defaultEdge {K : Type} [Field K] : EdgeProjectionData K :=
  { cam := 0, pt := 0, measurement := ![0, 0], information := 1,
    robustKernel := RobustKernelKind.nokernel }

/-- A concrete one-camera, one-point, one-observation problem used for
witnesses. -/
def testProblem : BALProblemData ℚ :=
  { num_cameras := 1, num_points := 1, num_observations := 1,
    camera_index := fun _ => 0, point_index := fun _ => 0,
    observations := fun n => (n : ℚ) + 7, parameters := fun _ => 0 }

/-! ## SO(3) exponential and logarithm (Sophus `SO3d::exp` / `SO3d::log`) -/

/-- The skew-symmetric hat matrix of a 3-vector. -/
def hat {K : Type} [Field K] (w : Fin 3 → K) : Matrix (Fin 3) (Fin 3) K :=
  Matrix.of ![![0, -w 2, w 1], ![w 2, 0, -w 0], ![-w 1, w 0, 0]]

/-- `Sophus::SO3d::exp`: the SO(3) exponential of a tangent 3-vector by
the Rodrigues formula `cos θ · I + sin θ · ŵ + (1 − cos θ) · w wᵀ` with
`θ = ‖v‖` and `w = v / θ` (at `v = 0` it evaluates to the identity). -/
noncomputable def SO3exp (v : Fin 3 → ℝ) : Matrix (Fin 3) (Fin 3) ℝ :=
  let θ := Real.sqrt (dot3 v v)
  let w : Fin 3 → ℝ := fun i => v i / θ
  Real.cos θ • (1 : Matrix (Fin 3) (Fin 3) ℝ) + Real.sin θ • hat w
    + (1 - Real.cos θ) • Matrix.vecMulVec w w

/-- `Sophus::SO3d::log`: the principal rotation logarithm, recovering the
angle from the trace, `θ = arccos((tr R − 1) / 2) ∈ [0, π]`, and the
axis direction from the skew-symmetric part of `R`. -/
noncomputable def SO3log (R : Matrix (Fin 3) (Fin 3) ℝ) : Fin 3 → ℝ :=
  let θ := Real.arccos ((Matrix.trace R - 1) / 2)
  fun i => θ / (2 * Real.sin θ) * ![R 2 1 - R 1 2, R 0 2 - R 2 0, R 1 0 - R 0 1] i

/-- The `PoseAndIntrinsics(double *data_addr)` constructor: rotation from
the SO(3) exponential of the first three scalars, translation from the
next three, focal, k1, k2 from the last three. -/
noncomputable def fromRaw (d : Fin 9 → ℝ) : PoseAndIntrinsics ℝ :=
  { rotation := SO3exp ![d 0, d 1, d 2]
    translation := ![d 3, d 4, d 5]
    focal := d 6
    k1 := d 7
    k2 := d 8 }

/-- `PoseAndIntrinsics::set_to`: writes the rotation logarithm, the
translation, focal, k1, k2 into the nine slots of a raw camera block. -/
noncomputable def set_to (e : PoseAndIntrinsics ℝ) : Fin 9 → ℝ :=
  ![SO3log e.rotation 0, SO3log e.rotation 1, SO3log e.rotation 2,
    e.translation 0, e.translation 1, e.translation 2, e.focal, e.k1, e.k2]

/-- `VertexPoseAndIntrinsics::oplusImpl`: the rotation becomes
`SO3d::exp(update[0:3]) * rotation`; translation, focal, k1, k2 are
updated additively. -/
noncomputable def oplusImpl (est : PoseAndIntrinsics ℝ) (update : Fin 9 → ℝ) :
    PoseAndIntrinsics ℝ :=
  { rotation := SO3exp ![update 0, update 1, update 2] * est.rotation
    translation := fun i => est.translation i + ![update 3, update 4, update 5] i
    focal := est.focal + update 6
    k1 := est.k1 + update 7
    k2 := est.k2 + update 8 }

/-- A concrete raw camera block (zero rotation vector, nonzero
translation and intrinsics) used for the round-trip witness. -/
noncomputable def testRawCamera : Fin 9 → ℝ := ![0, 0, 0, 4, 5, 6, 7, 8, 9]

/-! ## SolveBA write-back (driver file, lines 192–205)

The flat parameter array (`double *parameters_`) is modelled as a
function `ℕ → ℝ`; each C++ store `a[i] = x` is one pointwise update, and
each write-back loop is a fold of its body over `List.range`. -/

/-- A single store into a flat array: `a[i] = x`. -/
def upd {K : Type} [Field K] (a : ℕ → K) (i : ℕ) (x : K) : ℕ → K :=
  fun n => if n = i then x else a n

/-- `PoseAndIntrinsics::set_to(data_addr)` performed at offset `base` of
the flat parameter array: the nine sequential stores of the source
(rotation logarithm into slots `base..base+2`, translation into
`base+3..base+5`, focal, k1, k2 into `base+6..base+8`). -/
noncomputable def set_to_at (e : PoseAndIntrinsics ℝ) (base : ℕ) (a : ℕ → ℝ) : ℕ → ℝ :=
  upd (upd (upd (upd (upd (upd (upd (upd (upd a
    base (SO3log e.rotation 0))
    (base + 1) (SO3log e.rotation 1))
    (base + 2) (SO3log e.rotation 2))
    (base + 3) (e.translation 0))
    (base + 4) (e.translation 1))
    (base + 5) (e.translation 2))
    (base + 6) e.focal)
    (base + 7) e.k1)
    (base + 8) e.k2

/-- The camera write-back loop of `SolveBA`:
`for (i < num_cameras) estimate.set_to(cameras + camera_block_size * i)`
with `camera_block_size = 9`. -/
noncomputable def writeBackCameras (nc : ℕ) (est : ℕ → PoseAndIntrinsics ℝ)
    (a : ℕ → ℝ) : ℕ → ℝ :=
  (List.range nc).foldl (fun acc i => set_to_at (est i) (9 * i) acc) a

/-- The point write-back loop of `SolveBA`:
`for (j < num_points) for (k < 3) point[k] = estimate[k]` with
`point = points + 3*j` and `points = parameters + 9*num_cameras`, so the
stores land at `offset + 3*j + k`. -/
noncomputable def writeBackPoints (offset np : ℕ) (est : ℕ → Fin 3 → ℝ)
    (a : ℕ → ℝ) : ℕ → ℝ :=
  (List.range np).foldl (fun acc j =>
    upd (upd (upd acc
      (offset + 3 * j) (est j 0))
      (offset + 3 * j + 1) (est j 1))
      (offset + 3 * j + 2) (est j 2)) a

/-- The final phase of `SolveBA`: the optimized camera and point
estimates are written back into the problem's flat parameter array; no
other field of the container is touched. -/
noncomputable def solveBAWriteBack (P : BALProblemData ℝ)
    (camEst : ℕ → PoseAndIntrinsics ℝ) (ptEst : ℕ → Fin 3 → ℝ) :
    BALProblemData ℝ :=
  { P with
    parameters := writeBackPoints (9 * P.num_cameras) P.num_points ptEst
        (writeBackCameras P.num_cameras camEst P.parameters) }

/-- A one-camera, one-point, one-observation problem over `ℝ` used for
the write-back witness. -/
noncomputable def testProblemR : BALProblemData ℝ :=
  { num_cameras := 1, num_points := 1, num_observations := 1,
    camera_index := fun _ => 0, point_index := fun _ => 0,
    observations := fun n => (n : ℝ), parameters := fun _ => 0 }

/-- A concrete optimized camera estimate for the write-back witness. -/
noncomputable def testCameraEstR : PoseAndIntrinsics ℝ :=
  { rotation := 1, translation := ![1, 2, 3], focal := 4, k1 := 5, k2 := 6 }

/-- A concrete optimized point estimate for the write-back witness. -/
noncomputable def testPointEstR : Fin 3 → ℝ := ![10, 11, 12]

/-! ## Angle-axis / center conversion helpers (`common.h`, angle-axis mode) -/

/-- Modelled from the spec: `rotation.h` (included by `common.h` but not
among the available sources) supplies the Ceres-style helper
`AngleAxisRotatePoint(angle_axis, pt, result)` used by the out-of-scope
angle-axis/quaternion conversion helpers; it applies the rotation whose
angle-axis vector is `angle_axis` to the point, i.e. the Rodrigues
formula `cos θ · p + sin θ · (w × p) + (1 − cos θ)(w·p) w` with
`θ = ‖angle_axis‖` and `w = angle_axis / θ` (the identity map when
`angle_axis = 0`). -/
noncomputable def AngleAxisRotatePoint (angle_axis pt : Fin 3 → ℝ) : Fin 3 → ℝ :=
  let θ := Real.sqrt (dot3 angle_axis angle_axis)
  let w : Fin 3 → ℝ := fun i => angle_axis i / θ
  fun i => Real.cos θ * pt i + Real.sin θ * cross3 w pt i
    + (1 - Real.cos θ) * dot3 w pt * w i

/-- `BALProblem::CameraToAngleAxisAndCenter` in angle-axis mode
(`use_quaternions_ = false`, so `camera_block_size() = 9`): the
angle-axis vector is copied from the first three scalars of the camera
block, and the center is computed by rotating the translation
`camera[3:6]` by the inverse rotation and negating: `c = -R⁻¹·t`. -/
noncomputable def CameraToAngleAxisAndCenter (camera : Fin 9 → ℝ) :
    (Fin 3 → ℝ) × (Fin 3 → ℝ) :=
  let angle_axis : Fin 3 → ℝ := ![camera 0, camera 1, camera 2]
  let inverse_rotation : Fin 3 → ℝ := fun i => -angle_axis i
  let center :=
    AngleAxisRotatePoint inverse_rotation ![camera 3, camera 4, camera 5]
  (angle_axis, fun i => -center i)

/-- `BALProblem::AngleAxisAndCenterToCamera` in angle-axis mode: writes
the angle-axis vector into `camera[0:3]` and `t = -R·c` into
`camera[3:6]`; the three remaining slots of the destination block are
not written (they keep the destination's values). -/
noncomputable def AngleAxisAndCenterToCamera (angle_axis center : Fin 3 → ℝ)
    (camera : Fin 9 → ℝ) : Fin 9 → ℝ :=
  let t := AngleAxisRotatePoint angle_axis center
  ![angle_axis 0, angle_axis 1, angle_axis 2, -t 0, -t 1, -t 2,
    camera 6, camera 7, camera 8]

/-! ## Theorems -/

/-- Helper for C5: the loop variable `j` of the mismatched inner loop is
never modified by the loop body. -/
theorem writeCamerasLoopState_snd (i : Int) (n : Nat) :
    (writeCamerasLoopState i n).2 = 0 := by
  induction n with
  | zero => rfl
  | succ n ih => simpa [writeCamerasLoopState, writeCamerasLoopStep] using ih

/-- C5: in `WriteToFile`, the inner loop writing the 9 per-camera scalars
tests `j < 9` but increments `i`; on any problem with at least one camera
the outer loop is entered (`0 < num_cameras_`) and the inner loop's guard
still holds after every number `n` of iterations, so the iteration is
unbounded and `WriteToFile` does not terminate normally. -/
theorem writeToFile_inner_loop_unbounded
    (num_cameras : Int) (i : Int) (n : Nat) (h : 1 ≤ num_cameras) :
    0 < num_cameras ∧ writeCamerasLoopGuard (writeCamerasLoopState i n) := by
  refine ⟨h, ?_⟩
  show (writeCamerasLoopState i n).2 < 9
  rw [writeCamerasLoopState_snd]
  norm_num

/-- Witness for C5 at a concrete instance: one camera, outer index `0`,
one thousand iterations of the inner loop, guard still true. -/
theorem writeToFile_inner_loop_unbounded_witness :
    0 < (1 : Int) ∧ writeCamerasLoopGuard (writeCamerasLoopState 0 1000) :=
  writeToFile_inner_loop_unbounded 1 0 1000 (by norm_num)

/-- C10, counterexample to the claim as stated: for the problem with
`num_cameras = num_points = num_observations = 1`, the three counts the
constructor reads back from the header written by `WriteToFile` are
`(1, 1, 1)` — exactly the counts of the problem that was written, not
different from them. -/
theorem writeToFile_roundtrip_counts_cex :
    readHeaderCounts (writeToFileHeader 1 1 1) = some (1, 1, 1) := by
  rfl

/-- C10, amended: `WriteToFile` writes the four-integer header
`(num_cameras, num_cameras, num_points, num_observations)` while the
constructor reads exactly three header integers, so reading back yields
the counts `(num_cameras, num_cameras, num_points)`; these differ from
the counts of the problem that was written whenever `num_points ≠
num_cameras` or `num_observations ≠ num_points`. -/
theorem writeToFile_roundtrip_counts
    (num_cameras num_points num_observations : Int)
    (h : num_points ≠ num_cameras ∨ num_observations ≠ num_points) :
    readHeaderCounts (writeToFileHeader num_cameras num_points num_observations)
      = some (num_cameras, num_cameras, num_points) ∧
    (num_cameras, num_cameras, num_points)
      ≠ (num_cameras, num_points, num_observations) := by
  refine ⟨rfl, ?_⟩
  intro heq
  rcases h with h | h
  · exact h (congrArg (fun p => p.2.1) heq).symm
  · have h1 : num_cameras = num_points := congrArg (fun p => p.2.1) heq
    have h2 : num_points = num_observations := congrArg (fun p => p.2.2) heq
    exact h h2.symm

/-- Witness for C10 at the concrete problem `(2, 3, 5)`: the read-back
counts are `(2, 2, 3) ≠ (2, 3, 5)`. -/
theorem writeToFile_roundtrip_counts_witness :
    ((3 : Int) ≠ 2 ∨ (5 : Int) ≠ 3) ∧
    (readHeaderCounts (writeToFileHeader 2 3 5) = some (2, 2, 3) ∧
      ((2 : Int), (2 : Int), (3 : Int)) ≠ ((2 : Int), (3 : Int), (5 : Int))) :=
  ⟨by norm_num, writeToFile_roundtrip_counts 2 3 5 (by norm_num)⟩

/-- C1, counterexample to the claim as stated: for the test camera
(identity rotation, zero translation, `focal = 1`, `k1 = 1`, `k2 = 0`)
and the point `(1, 0, -1)`, the source's `project` returns `(3, 0)`
(because `r²` includes the squared unit third component of the normalized
3-vector, so `r² = 2`), while the projection described by the claim —
`r²` from the `x/z` and `y/z` components only, so `r² = 1` — returns
`(2, 0)`. -/
theorem project_r2_claim_cex :
    project testCamera testPoint ≠ projectSpecClaim testCamera testPoint := by
  intro h
  have h0 := congrFun h 0
  norm_num [project, projectSpecClaim, testCamera, testPoint, dot3,
    Matrix.one_mulVec] at h0

/-- C1, amended: `project` transforms the point into the camera frame as
`p_c = R·p + t`, performs perspective division using the negated
camera-frame coordinates, applies the radial distortion polynomial
`1 + k1·r² + k2·r⁴` where `r²` is the squared norm of the full normalized
3-vector — `(x/z)² + (y/z)² + 1`, the unit third component included —
and returns the distorted coordinates scaled by the focal length
(provided the camera-frame depth `p_c[2]` is nonzero, so that the
perspective division is meaningful). -/
theorem project_eq_amendedClaim {K : Type} [Field K]
    (est : PoseAndIntrinsics K) (point : Fin 3 → K)
    (h : est.rotation.mulVec point 2 + est.translation 2 ≠ 0) :
    project est point = projectAmendedClaim est point := by
  funext i
  fin_cases i <;>
    · simp only [project, projectAmendedClaim, dot3, Fin.isValue,
        Matrix.cons_val_zero, Matrix.cons_val_one, Matrix.head_cons]
      field_simp
      ring

/-- Witness for C1's amended theorem at the test camera and test point:
the camera-frame depth is `-1 ≠ 0` and the two sides agree there. -/
theorem project_eq_amendedClaim_witness :
    (testCamera.rotation.mulVec testPoint 2 + testCamera.translation 2 ≠ 0) ∧
    project testCamera testPoint = projectAmendedClaim testCamera testPoint :=
  ⟨by norm_num [testCamera, testPoint, Matrix.one_mulVec],
   project_eq_amendedClaim testCamera testPoint
     (by norm_num [testCamera, testPoint, Matrix.one_mulVec])⟩

/-- C7: `SolveBA` creates exactly one residual edge per observation
(`buildEdges` has one entry for each of the `num_observations`
observations), and the edge for observation `i` connects the camera
vertex at `camera_index[i]` and the point vertex at `point_index[i]`,
carries the measurement `(observations[2i], observations[2i+1])`, the
2×2 identity information matrix, and a Huber robust-loss kernel. -/
theorem solveBA_edge_configuration {K : Type} [Field K]
    (P : BALProblemData K) (i : ℕ) (h : i < P.num_observations) :
    (buildEdges P).length = P.num_observations ∧
    (buildEdges P).getD i defaultEdge =
      { cam := P.camera_index i
        pt := P.point_index i
        measurement := ![P.observations (2 * i), P.observations (2 * i + 1)]
        information := 1
        robustKernel := RobustKernelKind.huber } := by
  have hlen : (buildEdges P).length = P.num_observations := by
    simp [buildEdges]
  refine ⟨hlen, ?_⟩
  have hi : i < (buildEdges P).length := hlen ▸ h
  rw [List.getD_eq_getElem _ _ hi]
  simp [buildEdges]

/-- Witness for C7 on the concrete one-observation test problem. -/
theorem solveBA_edge_configuration_witness :
    0 < testProblem.num_observations ∧
    ((buildEdges testProblem).length = testProblem.num_observations ∧
     (buildEdges testProblem).getD 0 defaultEdge =
       { cam := testProblem.camera_index 0
         pt := testProblem.point_index 0
         measurement := ![testProblem.observations 0, testProblem.observations 1]
         information := 1
         robustKernel := RobustKernelKind.huber }) :=
  ⟨Nat.zero_lt_one, solveBA_edge_configuration testProblem 0 Nat.zero_lt_one⟩

/-- C6: at every evaluation, the error of the edge attached to
observation `i` equals `project` of the current camera and point
estimates minus the fixed measured pixel `(observations[2i],
observations[2i+1])` of that observation. -/
theorem computeError_eq_project_sub_measurement {K : Type} [Field K]
    (P : BALProblemData K) (i : ℕ) (h : i < P.num_observations)
    (v0 : PoseAndIntrinsics K) (v1 : Fin 3 → K) (j : Fin 2) :
    computeError v0 v1 ((buildEdges P).getD i defaultEdge).measurement j
      = project v0 v1 j - ![P.observations (2 * i), P.observations (2 * i + 1)] j := by
  have hlen : (buildEdges P).length = P.num_observations := by
    simp [buildEdges]
  have hi : i < (buildEdges P).length := hlen ▸ h
  rw [List.getD_eq_getElem _ _ hi]
  simp [buildEdges, computeError]

/-- Witness for C6 on the concrete test problem, camera and point, first
error component. -/
theorem computeError_eq_project_sub_measurement_witness :
    0 < testProblem.num_observations ∧
    computeError testCamera testPoint
        ((buildEdges testProblem).getD 0 defaultEdge).measurement 0
      = project testCamera testPoint 0
        - ![testProblem.observations 0, testProblem.observations 1] 0 :=
  ⟨Nat.zero_lt_one,
   computeError_eq_project_sub_measurement testProblem 0 Nat.zero_lt_one
     testCamera testPoint 0⟩

/-- C2: `oplusImpl` replaces the rotation by the exponential of
`delta[0:3]` composed on the left of the current rotation — a
left-multiplicative retraction, not an addition of rotation parameters —
and updates translation, focal, k1, k2 by ordinary addition of
`delta[3:6]`, `delta[6]`, `delta[7]`, `delta[8]`. -/
theorem oplusImpl_left_multiplicative_retraction
    (est : PoseAndIntrinsics ℝ) (update : Fin 9 → ℝ) :
    (oplusImpl est update).rotation
        = SO3exp ![update 0, update 1, update 2] * est.rotation ∧
    (oplusImpl est update).translation 0 = est.translation 0 + update 3 ∧
    (oplusImpl est update).translation 1 = est.translation 1 + update 4 ∧
    (oplusImpl est update).translation 2 = est.translation 2 + update 5 ∧
    (oplusImpl est update).focal = est.focal + update 6 ∧
    (oplusImpl est update).k1 = est.k1 + update 7 ∧
    (oplusImpl est update).k2 = est.k2 + update 8 := by
  refine ⟨rfl, ?_, ?_, ?_, rfl, rfl, rfl⟩ <;> simp [oplusImpl]

/-- Helper: a dot product of a 3-vector with itself is nonnegative. -/
theorem dot3_self_nonneg (v : Fin 3 → ℝ) : 0 ≤ dot3 v v := by
  have h0 := mul_self_nonneg (v 0)
  have h1 := mul_self_nonneg (v 1)
  have h2 := mul_self_nonneg (v 2)
  simp only [dot3]
  linarith

/-- Helper: the SO(3) exponential of the zero tangent vector is the
identity matrix. -/
theorem SO3exp_zero (v : Fin 3 → ℝ) (h0 : v 0 = 0) (h1 : v 1 = 0) (h2 : v 2 = 0) :
    SO3exp v = 1 := by
  simp [SO3exp, dot3, h0, h1, h2]

/-- Helper: the rotation logarithm of the identity matrix is zero. -/
theorem SO3log_one : SO3log (1 : Matrix (Fin 3) (Fin 3) ℝ) = fun _ => (0 : ℝ) := by
  funext i
  fin_cases i <;>
    simp [SO3log, Matrix.one_apply]

/-- Helper: on the principal branch (`‖v‖ < π`), the rotation logarithm
inverts the SO(3) exponential. -/
theorem SO3log_SO3exp (v : Fin 3 → ℝ)
    (h : Real.sqrt (dot3 v v) < Real.pi) :
    SO3log (SO3exp v) = v := by
  have hN : 0 ≤ dot3 v v := dot3_self_nonneg v
  have hθ0 : 0 ≤ Real.sqrt (dot3 v v) := Real.sqrt_nonneg _
  have hθsq : Real.sqrt (dot3 v v) ^ 2 = dot3 v v := Real.sq_sqrt hN
  by_cases hz : Real.sqrt (dot3 v v) = 0
  · have hN0 : dot3 v v = 0 := by rw [← hθsq, hz]; ring
    have hsq : v 0 * v 0 + v 1 * v 1 + v 2 * v 2 = 0 := hN0
    have h0 : v 0 = 0 := by
      have := mul_self_nonneg (v 1)
      have := mul_self_nonneg (v 2)
      have := mul_self_nonneg (v 0)
      have hv : v 0 * v 0 = 0 := by linarith
      exact mul_self_eq_zero.mp hv
    have h1 : v 1 = 0 := by
      have := mul_self_nonneg (v 1)
      have := mul_self_nonneg (v 2)
      have := mul_self_nonneg (v 0)
      have hv : v 1 * v 1 = 0 := by linarith
      exact mul_self_eq_zero.mp hv
    have h2 : v 2 = 0 := by
      have := mul_self_nonneg (v 1)
      have := mul_self_nonneg (v 2)
      have := mul_self_nonneg (v 0)
      have hv : v 2 * v 2 = 0 := by linarith
      exact mul_self_eq_zero.mp hv
    rw [SO3exp_zero v h0 h1 h2, SO3log_one]
    funext i
    fin_cases i <;> simp [h0, h1, h2]
  · have hθpos : 0 < Real.sqrt (dot3 v v) := lt_of_le_of_ne hθ0 (Ne.symm hz)
    have hsin : 0 < Real.sin (Real.sqrt (dot3 v v)) :=
      Real.sin_pos_of_pos_of_lt_pi hθpos h
    have hms : Real.sqrt (dot3 v v) * Real.sqrt (dot3 v v) = dot3 v v :=
      Real.mul_self_sqrt hN
    have hd : dot3 v v ≠ 0 := by
      intro h0
      exact hz (by rw [h0, Real.sqrt_zero])
    have hw : v 0 / Real.sqrt (dot3 v v) * (v 0 / Real.sqrt (dot3 v v))
        + v 1 / Real.sqrt (dot3 v v) * (v 1 / Real.sqrt (dot3 v v))
        + v 2 / Real.sqrt (dot3 v v) * (v 2 / Real.sqrt (dot3 v v)) = 1 := by
      rw [div_mul_div_comm, div_mul_div_comm, div_mul_div_comm, hms,
        div_add_div_same, div_add_div_same,
        show v 0 * v 0 + v 1 * v 1 + v 2 * v 2 = dot3 v v from rfl]
      exact div_self hd
    have htr : Matrix.trace (SO3exp v)
        = 1 + 2 * Real.cos (Real.sqrt (dot3 v v)) := by
      simp only [SO3exp, Matrix.trace, Matrix.diag_apply, Fin.sum_univ_three,
        Matrix.add_apply, Matrix.smul_apply, Matrix.one_apply_eq,
        Matrix.vecMulVec_apply, hat, Matrix.of_apply, Matrix.cons_val',
        Matrix.cons_val_zero, Matrix.cons_val_one, Matrix.head_cons,
        Matrix.empty_val', Matrix.cons_val_fin_one, Matrix.cons_val_two,
        Matrix.vecTail, Matrix.vecHead, smul_eq_mul, Function.comp_apply,
        Fin.succ_zero_eq_one, Fin.succ_one_eq_two]
      linear_combination (1 - Real.cos (Real.sqrt (dot3 v v))) * hw
    have harc : Real.arccos ((Matrix.trace (SO3exp v) - 1) / 2)
        = Real.sqrt (dot3 v v) := by
      rw [htr]
      have : (1 + 2 * Real.cos (Real.sqrt (dot3 v v)) - 1) / 2
          = Real.cos (Real.sqrt (dot3 v v)) := by ring
      rw [this]
      exact Real.arccos_cos hθ0 h.le
    have hskew0 : SO3exp v 2 1 - SO3exp v 1 2
        = 2 * Real.sin (Real.sqrt (dot3 v v)) * (v 0 / Real.sqrt (dot3 v v)) := by
      simp only [SO3exp, Matrix.add_apply, Matrix.smul_apply,
        Matrix.vecMulVec_apply, hat, Matrix.of_apply, Matrix.cons_val',
        Matrix.cons_val_zero, Matrix.cons_val_one, Matrix.head_cons,
        Matrix.empty_val', Matrix.cons_val_fin_one, Matrix.cons_val_two,
        Matrix.vecTail, Matrix.vecHead, smul_eq_mul, Function.comp_apply,
        Fin.succ_zero_eq_one, Fin.succ_one_eq_two, Matrix.one_apply]
      simp
      ring
    have hskew1 : SO3exp v 0 2 - SO3exp v 2 0
        = 2 * Real.sin (Real.sqrt (dot3 v v)) * (v 1 / Real.sqrt (dot3 v v)) := by
      simp only [SO3exp, Matrix.add_apply, Matrix.smul_apply,
        Matrix.vecMulVec_apply, hat, Matrix.of_apply, Matrix.cons_val',
        Matrix.cons_val_zero, Matrix.cons_val_one, Matrix.head_cons,
        Matrix.empty_val', Matrix.cons_val_fin_one, Matrix.cons_val_two,
        Matrix.vecTail, Matrix.vecHead, smul_eq_mul, Function.comp_apply,
        Fin.succ_zero_eq_one, Fin.succ_one_eq_two, Matrix.one_apply]
      simp
      ring
    have hskew2 : SO3exp v 1 0 - SO3exp v 0 1
        = 2 * Real.sin (Real.sqrt (dot3 v v)) * (v 2 / Real.sqrt (dot3 v v)) := by
      simp only [SO3exp, Matrix.add_apply, Matrix.smul_apply,
        Matrix.vecMulVec_apply, hat, Matrix.of_apply, Matrix.cons_val',
        Matrix.cons_val_zero, Matrix.cons_val_one, Matrix.head_cons,
        Matrix.empty_val', Matrix.cons_val_fin_one, Matrix.cons_val_two,
        Matrix.vecTail, Matrix.vecHead, smul_eq_mul, Function.comp_apply,
        Fin.succ_zero_eq_one, Fin.succ_one_eq_two, Matrix.one_apply]
      simp
      ring
    have hc0 : SO3log (SO3exp v) 0 = v 0 := by
      simp only [SO3log]
      rw [harc, Matrix.cons_val_zero, hskew0]
      field_simp
      ring
    have hc1 : SO3log (SO3exp v) 1 = v 1 := by
      simp only [SO3log]
      rw [harc, show (![SO3exp v 2 1 - SO3exp v 1 2, SO3exp v 0 2 - SO3exp v 2 0,
        SO3exp v 1 0 - SO3exp v 0 1] 1) = SO3exp v 0 2 - SO3exp v 2 0 from rfl,
        hskew1]
      field_simp
      ring
    have hc2 : SO3log (SO3exp v) 2 = v 2 := by
      simp only [SO3log]
      rw [harc, show (![SO3exp v 2 1 - SO3exp v 1 2, SO3exp v 0 2 - SO3exp v 2 0,
        SO3exp v 1 0 - SO3exp v 0 1] 2) = SO3exp v 1 0 - SO3exp v 0 1 from rfl,
        hskew2]
      field_simp
      ring
    funext i
    fin_cases i
    · exact hc0
    · exact hc1
    · exact hc2

/-- C3: the raw round trip `toRaw (fromRaw x)` (that is,
`set_to ∘ PoseAndIntrinsics(double*)`) reproduces the 9-scalar camera
array `x` whenever the rotation vector lies on the principal branch of
the logarithm (`‖x[0:3]‖ < π`); translation, focal, k1, k2 are copied
unchanged. -/
theorem set_to_fromRaw_roundtrip (x : Fin 9 → ℝ)
    (h : Real.sqrt (dot3 ![x 0, x 1, x 2] ![x 0, x 1, x 2]) < Real.pi) :
    set_to (fromRaw x) = x := by
  have hrot : SO3log (SO3exp ![x 0, x 1, x 2]) = ![x 0, x 1, x 2] :=
    SO3log_SO3exp _ h
  funext i
  fin_cases i
  · simpa [set_to, fromRaw] using congrFun hrot 0
  · simpa [set_to, fromRaw] using congrFun hrot 1
  · simpa [set_to, fromRaw] using congrFun hrot 2
  · rfl
  · rfl
  · rfl
  · rfl
  · rfl
  · rfl

/-- Witness for C3 at the concrete raw camera block
`(0, 0, 0, 4, 5, 6, 7, 8, 9)`: the rotation-vector norm `0` is below
`π`, and the round trip reproduces the block. -/
theorem set_to_fromRaw_roundtrip_witness :
    Real.sqrt (dot3 ![testRawCamera 0, testRawCamera 1, testRawCamera 2]
        ![testRawCamera 0, testRawCamera 1, testRawCamera 2]) < Real.pi ∧
    set_to (fromRaw testRawCamera) = testRawCamera := by
  have hlt : Real.sqrt (dot3 ![testRawCamera 0, testRawCamera 1, testRawCamera 2]
      ![testRawCamera 0, testRawCamera 1, testRawCamera 2]) < Real.pi := by
    have : dot3 ![testRawCamera 0, testRawCamera 1, testRawCamera 2]
        ![testRawCamera 0, testRawCamera 1, testRawCamera 2] = 0 := by
      norm_num [testRawCamera, dot3]
    rw [this, Real.sqrt_zero]
    exact Real.pi_pos
  exact ⟨hlt, set_to_fromRaw_roundtrip testRawCamera hlt⟩

/-- Helper: a store at one index leaves every other index unchanged
(nested-if form used by the write-back lemmas). -/
theorem upd_ne {K : Type} [Field K] (a : ℕ → K) {i n : ℕ} (x : K) (h : n ≠ i) :
    upd a i x n = a n :=
  if_neg h

/-- Helper: a store at an index is read back at that index. -/
theorem upd_same {K : Type} [Field K] (a : ℕ → K) (i : ℕ) (x : K) :
    upd a i x i = x := by
  simp [upd]

/-- Helper: `set_to_at` leaves every index outside `[base, base+9)`
unchanged. -/
theorem set_to_at_out (e : PoseAndIntrinsics ℝ) (base : ℕ) (a : ℕ → ℝ) (n : ℕ)
    (h : n < base ∨ base + 9 ≤ n) : set_to_at e base a n = a n := by
  simp only [set_to_at]
  repeat rw [upd_ne _ _ (by omega)]

/-- Helper: unfolding one step of the camera write-back fold. -/
theorem writeBackCameras_succ (nc : ℕ) (est : ℕ → PoseAndIntrinsics ℝ) (a : ℕ → ℝ) :
    writeBackCameras (nc + 1) est a
      = set_to_at (est nc) (9 * nc) (writeBackCameras nc est a) := by
  simp [writeBackCameras, List.range_succ]

/-- Helper: the camera write-back loop leaves indices at or beyond
`9 * num_cameras` unchanged. -/
theorem writeBackCameras_out (nc : ℕ) (est : ℕ → PoseAndIntrinsics ℝ) (a : ℕ → ℝ)
    (n : ℕ) (h : 9 * nc ≤ n) : writeBackCameras nc est a n = a n := by
  induction nc with
  | zero => rfl
  | succ m ih =>
    rw [writeBackCameras_succ, set_to_at_out _ _ _ _ (Or.inr (by omega)),
      ih (by omega)]

/-- Helper: inside camera block `i`, the camera write-back loop agrees
with the single `set_to` store of camera `i`. -/
theorem writeBackCameras_block (nc : ℕ) (est : ℕ → PoseAndIntrinsics ℝ) (a : ℕ → ℝ)
    (i n : ℕ) (hi : i < nc) (hn1 : 9 * i ≤ n) (hn2 : n < 9 * i + 9) :
    writeBackCameras nc est a n
      = set_to_at (est i) (9 * i) (writeBackCameras i est a) n := by
  induction nc with
  | zero => omega
  | succ m ih =>
    rw [writeBackCameras_succ]
    rcases Nat.lt_succ_iff_lt_or_eq.mp hi with him | him
    · rw [set_to_at_out _ _ _ _ (Or.inl (by omega))]
      exact ih him
    · subst him
      rfl

/-- Helper: unfolding one step of the point write-back fold. -/
theorem writeBackPoints_succ (o np : ℕ) (est : ℕ → Fin 3 → ℝ) (a : ℕ → ℝ) :
    writeBackPoints o (np + 1) est a
      = upd (upd (upd (writeBackPoints o np est a)
          (o + 3 * np) (est np 0)) (o + 3 * np + 1) (est np 1))
          (o + 3 * np + 2) (est np 2) := by
  simp [writeBackPoints, List.range_succ]

/-- Helper: the point write-back loop leaves indices below `offset` or at
or beyond `offset + 3 * num_points` unchanged. -/
theorem writeBackPoints_out (o np : ℕ) (est : ℕ → Fin 3 → ℝ) (a : ℕ → ℝ) (n : ℕ)
    (h : n < o ∨ o + 3 * np ≤ n) : writeBackPoints o np est a n = a n := by
  induction np with
  | zero => rfl
  | succ m ih =>
    rw [writeBackPoints_succ,
      upd_ne _ _ (by omega), upd_ne _ _ (by omega), upd_ne _ _ (by omega)]
    exact ih (by omega)

/-- Helper: inside point block `j`, the point write-back loop agrees with
the three stores of point `j`. -/
theorem writeBackPoints_block (o np : ℕ) (est : ℕ → Fin 3 → ℝ) (a : ℕ → ℝ)
    (j n : ℕ) (hj : j < np) (hn1 : o + 3 * j ≤ n) (hn2 : n < o + 3 * j + 3) :
    writeBackPoints o np est a n
      = upd (upd (upd (writeBackPoints o j est a)
          (o + 3 * j) (est j 0)) (o + 3 * j + 1) (est j 1))
          (o + 3 * j + 2) (est j 2) n := by
  induction np with
  | zero => omega
  | succ m ih =>
    rw [writeBackPoints_succ]
    rcases Nat.lt_succ_iff_lt_or_eq.mp hj with hjm | hjm
    · rw [upd_ne _ _ (by omega), upd_ne _ _ (by omega), upd_ne _ _ (by omega)]
      exact ih hjm
    · subst hjm
      rfl

/-- C8: after the write-back phase of `SolveBA`, the flat parameter
array holds, for every camera `i < num_cameras`, the nine scalars that
`set_to` writes for the optimized estimate — the rotation logarithm,
translation, focal, k1, k2 — at offsets `9i .. 9i+8`, and for every
point `j < num_points` the three optimized coordinates at offsets
`9·num_cameras + 3j .. 9·num_cameras + 3j + 2`; the observation array,
the camera-index and point-index arrays, and all counts are left
unchanged. -/
theorem solveBAWriteBack_frame (P : BALProblemData ℝ)
    (camEst : ℕ → PoseAndIntrinsics ℝ) (ptEst : ℕ → Fin 3 → ℝ)
    (i j : ℕ) (hi : i < P.num_cameras) (hj : j < P.num_points) :
    ((solveBAWriteBack P camEst ptEst).parameters (9 * i)
        = SO3log (camEst i).rotation 0 ∧
      (solveBAWriteBack P camEst ptEst).parameters (9 * i + 1)
        = SO3log (camEst i).rotation 1 ∧
      (solveBAWriteBack P camEst ptEst).parameters (9 * i + 2)
        = SO3log (camEst i).rotation 2 ∧
      (solveBAWriteBack P camEst ptEst).parameters (9 * i + 3)
        = (camEst i).translation 0 ∧
      (solveBAWriteBack P camEst ptEst).parameters (9 * i + 4)
        = (camEst i).translation 1 ∧
      (solveBAWriteBack P camEst ptEst).parameters (9 * i + 5)
        = (camEst i).translation 2 ∧
      (solveBAWriteBack P camEst ptEst).parameters (9 * i + 6)
        = (camEst i).focal ∧
      (solveBAWriteBack P camEst ptEst).parameters (9 * i + 7)
        = (camEst i).k1 ∧
      (solveBAWriteBack P camEst ptEst).parameters (9 * i + 8)
        = (camEst i).k2) ∧
    ((solveBAWriteBack P camEst ptEst).parameters (9 * P.num_cameras + 3 * j)
        = ptEst j 0 ∧
      (solveBAWriteBack P camEst ptEst).parameters (9 * P.num_cameras + 3 * j + 1)
        = ptEst j 1 ∧
      (solveBAWriteBack P camEst ptEst).parameters (9 * P.num_cameras + 3 * j + 2)
        = ptEst j 2) ∧
    (solveBAWriteBack P camEst ptEst).observations = P.observations ∧
    (solveBAWriteBack P camEst ptEst).camera_index = P.camera_index ∧
    (solveBAWriteBack P camEst ptEst).point_index = P.point_index ∧
    (solveBAWriteBack P camEst ptEst).num_cameras = P.num_cameras ∧
    (solveBAWriteBack P camEst ptEst).num_points = P.num_points ∧
    (solveBAWriteBack P camEst ptEst).num_observations = P.num_observations := by
  have hcam : ∀ k : ℕ, k < 9 →
      (solveBAWriteBack P camEst ptEst).parameters (9 * i + k)
        = set_to_at (camEst i) (9 * i) (writeBackCameras i camEst P.parameters)
            (9 * i + k) := by
    intro k hk
    have hparam : (solveBAWriteBack P camEst ptEst).parameters
        = writeBackPoints (9 * P.num_cameras) P.num_points ptEst
            (writeBackCameras P.num_cameras camEst P.parameters) := rfl
    rw [hparam, writeBackPoints_out _ _ _ _ _ (Or.inl (by omega)),
      writeBackCameras_block P.num_cameras camEst P.parameters i (9 * i + k) hi
        (by omega) (by omega)]
  have hpt : ∀ l : ℕ, l < 3 →
      (solveBAWriteBack P camEst ptEst).parameters (9 * P.num_cameras + 3 * j + l)
        = upd (upd (upd (writeBackPoints (9 * P.num_cameras) j ptEst
              (writeBackCameras P.num_cameras camEst P.parameters))
            (9 * P.num_cameras + 3 * j) (ptEst j 0))
            (9 * P.num_cameras + 3 * j + 1) (ptEst j 1))
            (9 * P.num_cameras + 3 * j + 2) (ptEst j 2)
            (9 * P.num_cameras + 3 * j + l) := by
    intro l hl
    have hparam : (solveBAWriteBack P camEst ptEst).parameters
        = writeBackPoints (9 * P.num_cameras) P.num_points ptEst
            (writeBackCameras P.num_cameras camEst P.parameters) := rfl
    rw [hparam]
    exact writeBackPoints_block (9 * P.num_cameras) P.num_points ptEst
      (writeBackCameras P.num_cameras camEst P.parameters) j
      (9 * P.num_cameras + 3 * j + l) hj (by omega) (by omega)
  have hA0 : (solveBAWriteBack P camEst ptEst).parameters (9 * i)
      = SO3log (camEst i).rotation 0 := by
    have h := hcam 0 (by omega)
    rw [Nat.add_zero] at h
    rw [h]
    simp only [set_to_at]
    repeat rw [upd_ne _ _ (by omega)]
    exact upd_same _ _ _
  have hA1 : (solveBAWriteBack P camEst ptEst).parameters (9 * i + 1)
      = SO3log (camEst i).rotation 1 := by
    rw [hcam 1 (by omega)]
    simp only [set_to_at]
    repeat rw [upd_ne _ _ (by omega)]
    exact upd_same _ _ _
  have hA2 : (solveBAWriteBack P camEst ptEst).parameters (9 * i + 2)
      = SO3log (camEst i).rotation 2 := by
    rw [hcam 2 (by omega)]
    simp only [set_to_at]
    repeat rw [upd_ne _ _ (by omega)]
    exact upd_same _ _ _
  have hA3 : (solveBAWriteBack P camEst ptEst).parameters (9 * i + 3)
      = (camEst i).translation 0 := by
    rw [hcam 3 (by omega)]
    simp only [set_to_at]
    repeat rw [upd_ne _ _ (by omega)]
    exact upd_same _ _ _
  have hA4 : (solveBAWriteBack P camEst ptEst).parameters (9 * i + 4)
      = (camEst i).translation 1 := by
    rw [hcam 4 (by omega)]
    simp only [set_to_at]
    repeat rw [upd_ne _ _ (by omega)]
    exact upd_same _ _ _
  have hA5 : (solveBAWriteBack P camEst ptEst).parameters (9 * i + 5)
      = (camEst i).translation 2 := by
    rw [hcam 5 (by omega)]
    simp only [set_to_at]
    repeat rw [upd_ne _ _ (by omega)]
    exact upd_same _ _ _
  have hA6 : (solveBAWriteBack P camEst ptEst).parameters (9 * i + 6)
      = (camEst i).focal := by
    rw [hcam 6 (by omega)]
    simp only [set_to_at]
    repeat rw [upd_ne _ _ (by omega)]
    exact upd_same _ _ _
  have hA7 : (solveBAWriteBack P camEst ptEst).parameters (9 * i + 7)
      = (camEst i).k1 := by
    rw [hcam 7 (by omega)]
    simp only [set_to_at]
    repeat rw [upd_ne _ _ (by omega)]
    exact upd_same _ _ _
  have hA8 : (solveBAWriteBack P camEst ptEst).parameters (9 * i + 8)
      = (camEst i).k2 := by
    rw [hcam 8 (by omega)]
    simp only [set_to_at]
    exact upd_same _ _ _
  have hB0 : (solveBAWriteBack P camEst ptEst).parameters
      (9 * P.num_cameras + 3 * j) = ptEst j 0 := by
    have h := hpt 0 (by omega)
    rw [Nat.add_zero] at h
    rw [h]
    repeat rw [upd_ne _ _ (by omega)]
    exact upd_same _ _ _
  have hB1 : (solveBAWriteBack P camEst ptEst).parameters
      (9 * P.num_cameras + 3 * j + 1) = ptEst j 1 := by
    rw [hpt 1 (by omega)]
    repeat rw [upd_ne _ _ (by omega)]
    exact upd_same _ _ _
  have hB2 : (solveBAWriteBack P camEst ptEst).parameters
      (9 * P.num_cameras + 3 * j + 2) = ptEst j 2 := by
    rw [hpt 2 (by omega)]
    exact upd_same _ _ _
  exact ⟨⟨hA0, hA1, hA2, hA3, hA4, hA5, hA6, hA7, hA8⟩, ⟨hB0, hB1, hB2⟩,
    rfl, rfl, rfl, rfl, rfl, rfl⟩

/-- Witness for C8 on the concrete one-camera, one-point problem with
concrete optimized estimates. -/
theorem solveBAWriteBack_frame_witness :
    0 < testProblemR.num_cameras ∧ 0 < testProblemR.num_points ∧
    ((solveBAWriteBack testProblemR (fun _ => testCameraEstR) (fun _ => testPointEstR)).parameters
        (9 * 0 + 6) = testCameraEstR.focal ∧
      (solveBAWriteBack testProblemR (fun _ => testCameraEstR) (fun _ => testPointEstR)).parameters
        (9 * testProblemR.num_cameras + 3 * 0) = testPointEstR 0 ∧
      (solveBAWriteBack testProblemR (fun _ => testCameraEstR) (fun _ => testPointEstR)).observations
        = testProblemR.observations) := by
  have h := solveBAWriteBack_frame testProblemR (fun _ => testCameraEstR)
    (fun _ => testPointEstR) 0 0 Nat.zero_lt_one Nat.zero_lt_one
  exact ⟨Nat.zero_lt_one, Nat.zero_lt_one,
    h.1.2.2.2.2.2.2.1, h.2.1.1, h.2.2.1⟩

/-- Helper: for any coefficients with `c² + s² = 1` and any unit vector
`w`, the Rodrigues rotation with coefficients `(c, -s)` followed by the
one with `(c, s)` is the identity, componentwise. -/
theorem rodrigues_inverse_pointwise (c s d e : ℝ) (w p g : Fin 3 → ℝ)
    (hcs : c ^ 2 + s ^ 2 = 1)
    (hw : w 0 * w 0 + w 1 * w 1 + w 2 * w 2 = 1)
    (hd : d = w 0 * p 0 + w 1 * p 1 + w 2 * p 2)
    (hg : ∀ j, g j = c * p j - s * cross3 w p j + (1 - c) * d * w j)
    (he : e = w 0 * g 0 + w 1 * g 1 + w 2 * g 2) :
    (c * g 0 + s * cross3 w g 0 + (1 - c) * e * w 0 = p 0) ∧
    (c * g 1 + s * cross3 w g 1 + (1 - c) * e * w 1 = p 1) ∧
    (c * g 2 + s * cross3 w g 2 + (1 - c) * e * w 2 = p 2) := by
  have hg0 := hg 0
  have hg1 := hg 1
  have hg2 := hg 2
  simp only [cross3, Matrix.cons_val_zero, Matrix.cons_val_one, Matrix.head_cons,
    Matrix.cons_val_two, Matrix.vecTail, Matrix.vecHead, Function.comp_apply,
    Fin.succ_zero_eq_one, Fin.succ_one_eq_two] at hg0 hg1 hg2
  subst hd he
  refine ⟨?_, ?_, ?_⟩
  · simp only [cross3, Matrix.cons_val_zero, Matrix.cons_val_one, Matrix.head_cons,
      Matrix.cons_val_two, Matrix.vecTail, Matrix.vecHead, Function.comp_apply,
      Fin.succ_zero_eq_one, Fin.succ_one_eq_two]
    rw [hg0, hg1, hg2]
    linear_combination
      (p 0 - (w 0 * p 0 + w 1 * p 1 + w 2 * p 2) * w 0) * hcs
      + (s ^ 2 * p 0 + (1 - c) ^ 2 * (w 0 * p 0 + w 1 * p 1 + w 2 * p 2) * w 0) * hw
  · simp only [cross3, Matrix.cons_val_zero, Matrix.cons_val_one, Matrix.head_cons,
      Matrix.cons_val_two, Matrix.vecTail, Matrix.vecHead, Function.comp_apply,
      Fin.succ_zero_eq_one, Fin.succ_one_eq_two]
    rw [hg0, hg1, hg2]
    linear_combination
      (p 1 - (w 0 * p 0 + w 1 * p 1 + w 2 * p 2) * w 1) * hcs
      + (s ^ 2 * p 1 + (1 - c) ^ 2 * (w 0 * p 0 + w 1 * p 1 + w 2 * p 2) * w 1) * hw
  · simp only [cross3, Matrix.cons_val_zero, Matrix.cons_val_one, Matrix.head_cons,
      Matrix.cons_val_two, Matrix.vecTail, Matrix.vecHead, Function.comp_apply,
      Fin.succ_zero_eq_one, Fin.succ_one_eq_two]
    rw [hg0, hg1, hg2]
    linear_combination
      (p 2 - (w 0 * p 0 + w 1 * p 1 + w 2 * p 2) * w 2) * hcs
      + (s ^ 2 * p 2 + (1 - c) ^ 2 * (w 0 * p 0 + w 1 * p 1 + w 2 * p 2) * w 2) * hw

/-- Helper: `AngleAxisRotatePoint` commutes with pointwise negation of
the rotated point. -/
theorem AngleAxisRotatePoint_neg_point (aa q : Fin 3 → ℝ) :
    AngleAxisRotatePoint aa (fun i => -q i)
      = fun i => -AngleAxisRotatePoint aa q i := by
  have h0 : AngleAxisRotatePoint aa (fun i => -q i) 0
      = -AngleAxisRotatePoint aa q 0 := by
    simp only [AngleAxisRotatePoint, cross3, dot3, Matrix.cons_val_zero,
      Matrix.cons_val_one, Matrix.head_cons, Matrix.cons_val_two,
      Matrix.vecTail, Matrix.vecHead, Function.comp_apply,
      Fin.succ_zero_eq_one, Fin.succ_one_eq_two]
    ring
  have h1 : AngleAxisRotatePoint aa (fun i => -q i) 1
      = -AngleAxisRotatePoint aa q 1 := by
    simp only [AngleAxisRotatePoint, cross3, dot3, Matrix.cons_val_zero,
      Matrix.cons_val_one, Matrix.head_cons, Matrix.cons_val_two,
      Matrix.vecTail, Matrix.vecHead, Function.comp_apply,
      Fin.succ_zero_eq_one, Fin.succ_one_eq_two]
    ring
  have h2 : AngleAxisRotatePoint aa (fun i => -q i) 2
      = -AngleAxisRotatePoint aa q 2 := by
    simp only [AngleAxisRotatePoint, cross3, dot3, Matrix.cons_val_zero,
      Matrix.cons_val_one, Matrix.head_cons, Matrix.cons_val_two,
      Matrix.vecTail, Matrix.vecHead, Function.comp_apply,
      Fin.succ_zero_eq_one, Fin.succ_one_eq_two]
    ring
  funext i
  fin_cases i
  · exact h0
  · exact h1
  · exact h2

/-- Helper: rotating by the angle-axis vector `aa` undoes rotating by
`-aa`. -/
theorem AngleAxisRotatePoint_inverse (aa p : Fin 3 → ℝ) :
    AngleAxisRotatePoint aa (AngleAxisRotatePoint (fun i => -aa i) p) = p := by
  have hd3 : dot3 (fun i => -aa i) (fun i => -aa i) = dot3 aa aa := by
    simp only [dot3]
    ring
  have hN : 0 ≤ dot3 aa aa := dot3_self_nonneg aa
  by_cases hz : Real.sqrt (dot3 aa aa) = 0
  · have hz' : Real.sqrt (dot3 (fun i => -aa i) (fun i => -aa i)) = 0 := by
      rw [hd3]
      exact hz
    funext i
    simp [AngleAxisRotatePoint, hz, hz']
  · have hms : Real.sqrt (dot3 aa aa) * Real.sqrt (dot3 aa aa) = dot3 aa aa :=
      Real.mul_self_sqrt hN
    have hdne : dot3 aa aa ≠ 0 := by
      intro h0
      exact hz (by rw [h0, Real.sqrt_zero])
    have hwsum : aa 0 / Real.sqrt (dot3 aa aa) * (aa 0 / Real.sqrt (dot3 aa aa))
        + aa 1 / Real.sqrt (dot3 aa aa) * (aa 1 / Real.sqrt (dot3 aa aa))
        + aa 2 / Real.sqrt (dot3 aa aa) * (aa 2 / Real.sqrt (dot3 aa aa)) = 1 := by
      rw [div_mul_div_comm, div_mul_div_comm, div_mul_div_comm, hms,
        div_add_div_same, div_add_div_same,
        show aa 0 * aa 0 + aa 1 * aa 1 + aa 2 * aa 2 = dot3 aa aa from rfl]
      exact div_self hdne
    have hcs : Real.cos (Real.sqrt (dot3 aa aa)) ^ 2
        + Real.sin (Real.sqrt (dot3 aa aa)) ^ 2 = 1 :=
      Real.cos_sq_add_sin_sq _
    have hh0 : AngleAxisRotatePoint (fun i => -aa i) p 0
        = Real.cos (Real.sqrt (dot3 aa aa)) * p 0
          - Real.sin (Real.sqrt (dot3 aa aa))
            * cross3 (fun k => aa k / Real.sqrt (dot3 aa aa)) p 0
          + (1 - Real.cos (Real.sqrt (dot3 aa aa)))
            * dot3 (fun k => aa k / Real.sqrt (dot3 aa aa)) p
            * (aa 0 / Real.sqrt (dot3 aa aa)) := by
      simp only [AngleAxisRotatePoint]
      rw [hd3]
      simp only [cross3, dot3, Matrix.cons_val_zero, Matrix.cons_val_one,
        Matrix.head_cons, Matrix.cons_val_two, Matrix.vecTail, Matrix.vecHead,
        Function.comp_apply, Fin.succ_zero_eq_one, Fin.succ_one_eq_two]
      ring
    have hh1 : AngleAxisRotatePoint (fun i => -aa i) p 1
        = Real.cos (Real.sqrt (dot3 aa aa)) * p 1
          - Real.sin (Real.sqrt (dot3 aa aa))
            * cross3 (fun k => aa k / Real.sqrt (dot3 aa aa)) p 1
          + (1 - Real.cos (Real.sqrt (dot3 aa aa)))
            * dot3 (fun k => aa k / Real.sqrt (dot3 aa aa)) p
            * (aa 1 / Real.sqrt (dot3 aa aa)) := by
      simp only [AngleAxisRotatePoint]
      rw [hd3]
      simp only [cross3, dot3, Matrix.cons_val_zero, Matrix.cons_val_one,
        Matrix.head_cons, Matrix.cons_val_two, Matrix.vecTail, Matrix.vecHead,
        Function.comp_apply, Fin.succ_zero_eq_one, Fin.succ_one_eq_two]
      ring
    have hh2 : AngleAxisRotatePoint (fun i => -aa i) p 2
        = Real.cos (Real.sqrt (dot3 aa aa)) * p 2
          - Real.sin (Real.sqrt (dot3 aa aa))
            * cross3 (fun k => aa k / Real.sqrt (dot3 aa aa)) p 2
          + (1 - Real.cos (Real.sqrt (dot3 aa aa)))
            * dot3 (fun k => aa k / Real.sqrt (dot3 aa aa)) p
            * (aa 2 / Real.sqrt (dot3 aa aa)) := by
      simp only [AngleAxisRotatePoint]
      rw [hd3]
      simp only [cross3, dot3, Matrix.cons_val_zero, Matrix.cons_val_one,
        Matrix.head_cons, Matrix.cons_val_two, Matrix.vecTail, Matrix.vecHead,
        Function.comp_apply, Fin.succ_zero_eq_one, Fin.succ_one_eq_two]
      ring
    have hg : ∀ j : Fin 3, AngleAxisRotatePoint (fun i => -aa i) p j
        = Real.cos (Real.sqrt (dot3 aa aa)) * p j
          - Real.sin (Real.sqrt (dot3 aa aa))
            * cross3 (fun k => aa k / Real.sqrt (dot3 aa aa)) p j
          + (1 - Real.cos (Real.sqrt (dot3 aa aa)))
            * dot3 (fun k => aa k / Real.sqrt (dot3 aa aa)) p
            * (aa j / Real.sqrt (dot3 aa aa)) := by
      intro j
      fin_cases j
      · exact hh0
      · exact hh1
      · exact hh2
    have key := rodrigues_inverse_pointwise
      (Real.cos (Real.sqrt (dot3 aa aa))) (Real.sin (Real.sqrt (dot3 aa aa)))
      (dot3 (fun k => aa k / Real.sqrt (dot3 aa aa)) p)
      (dot3 (fun k => aa k / Real.sqrt (dot3 aa aa))
        (AngleAxisRotatePoint (fun i => -aa i) p))
      (fun k => aa k / Real.sqrt (dot3 aa aa)) p
      (AngleAxisRotatePoint (fun i => -aa i) p)
      hcs hwsum rfl hg rfl
    funext i
    fin_cases i
    · exact key.1
    · exact key.2.1
    · exact key.2.2

/-- C9: in angle-axis mode, `CameraToAngleAxisAndCenter` and
`AngleAxisAndCenterToCamera` are mutual inverses: the first computes the
camera center `c = -R⁻¹ t = -Rᵀ t` from the 9-scalar camera block, the
second recovers `t = -R c`, so feeding the first's output into the
second reproduces the original rotation vector and translation of the
camera block (the intrinsic slots are not written and keep their
values). -/
theorem cameraToAngleAxisAndCenter_roundtrip (camera : Fin 9 → ℝ) :
    AngleAxisAndCenterToCamera (CameraToAngleAxisAndCenter camera).1
      (CameraToAngleAxisAndCenter camera).2 camera = camera := by
  have h1 : (CameraToAngleAxisAndCenter camera).2
      = fun i => -(AngleAxisRotatePoint
          (fun k => -(![camera 0, camera 1, camera 2] k))
          ![camera 3, camera 4, camera 5] i) := rfl
  have h2 : (CameraToAngleAxisAndCenter camera).1
      = ![camera 0, camera 1, camera 2] := rfl
  have hcenter : AngleAxisRotatePoint (CameraToAngleAxisAndCenter camera).1
      (CameraToAngleAxisAndCenter camera).2
      = fun k => -(![camera 3, camera 4, camera 5] k) := by
    rw [h1, h2, AngleAxisRotatePoint_neg_point, AngleAxisRotatePoint_inverse]
  funext i
  fin_cases i
  · rfl
  · rfl
  · rfl
  · show -(AngleAxisRotatePoint (CameraToAngleAxisAndCenter camera).1
        (CameraToAngleAxisAndCenter camera).2 0) = camera 3
    rw [hcenter]
    simp
  · show -(AngleAxisRotatePoint (CameraToAngleAxisAndCenter camera).1
        (CameraToAngleAxisAndCenter camera).2 1) = camera 4
    rw [hcenter]
    simp
  · show -(AngleAxisRotatePoint (CameraToAngleAxisAndCenter camera).1
        (CameraToAngleAxisAndCenter camera).2 2) = camera 5
    rw [hcenter]
    simp
  · rfl
  · rfl
  · rfl

end BA
